import Mathlib

/-!
Shallow embedding of the goit-algo-hw-14 FastAPI service
(`src/main.py`, `src/models.py`, `src/schemas.py`).

The relational store (two tables, `users` and `contacts`) is modelled as a
`DB` record holding the rows as lists together with the next auto-assigned
primary key for each table.  Each route handler of `main.py` becomes a pure
Lean function from its inputs and the current `DB` to either an
`HTTPException` (the handler raised) or a result paired with the new `DB`
(the handler committed).  SQLAlchemy `query(...).filter(...).first()`
becomes `List.find?`; in-place mutation of the row object found by
`.first()` followed by `commit` becomes replacing the first matching row
(`updateFirst`); `db.delete` of that row becomes erasing the first matching
row (`List.eraseP`).

`hash_password` and `verify_password` live in `utils.py`, which is not part
of the sources; the handlers are therefore parametric in those two
functions.  `str(uuid4())` is nondeterministic, so `register` takes the
generated token string as an argument; a value of `str(uuid4())` is always
a 36-character, hence non-empty, string, which theorems reflect as a
non-emptiness hypothesis on that argument.
-/

/-- A row of the `users` table (`models.py`, class `User`).
`is_verified` has column default `False`; `verification_token` and
`avatar_url` are nullable. -/
structure User where
  id : Nat
  email : String
  hashed_password : String
  is_verified : Bool
  verification_token : Option String
  avatar_url : Option String
deriving Repr, DecidableEq

/-- A calendar date, for the `birthday` column (`sqlalchemy.Date`). -/
structure CalDate where
  year : Nat
  month : Nat
  day : Nat
deriving Repr, DecidableEq

/-- A row of the `contacts` table (`models.py`, class `Contact`). -/
structure Contact where
  id : Nat
  first_name : String
  last_name : String
  email : String
  phone : String
  birthday : CalDate
  additional_info : String
  owner_id : Nat
deriving Repr, DecidableEq

/-- The relational store: both tables plus the next auto-increment primary
key of each. -/
structure DB where
  users : List User
  contacts : List Contact
  nextUserId : Nat
  nextContactId : Nat
deriving Repr, DecidableEq

/-- An error raised by a handler: `HTTPException(status_code, detail)`. -/
structure HTTPException where
  status_code : Nat
  detail : String
deriving Repr, DecidableEq

/-- Replace the first element satisfying `p` by its image under `f`,
leaving everything else unchanged.  This is the effect of mutating the row
returned by `query(...).filter(...).first()` and committing. -/
def updateFirst (p : α → Bool) (f : α → α) : List α → List α
  | [] => []
  | x :: xs => if p x then f x :: xs else x :: updateFirst p f xs

/-- Request body of `POST /register/` (`schemas.py`, `UserCreate`). -/
structure UserCreate where
  email : String
  password : String
deriving Repr, DecidableEq

/-- Handler `register` of `main.py`: rejects a duplicate email with 409,
otherwise hashes the password, stores a new unverified user carrying the
freshly generated verification token `uuidTok`, and returns the new row.
`hp` stands for `utils.hash_password`, whose source is not in the
repository snapshot. -/
def register (hp : String → String) (user : UserCreate) (uuidTok : String)
    (db : DB) : Except HTTPException (User × DB) :=
  match db.users.find? (fun u => u.email == user.email) with
  | some _ => .error ⟨409, "User with this email already exists"⟩
  | none =>
    let hashed_password := hp user.password
    let new_user : User :=
      { id := db.nextUserId
        email := user.email
        hashed_password := hashed_password
        is_verified := false
        verification_token := some uuidTok
        avatar_url := none }
    .ok (new_user,
      { db with users := db.users ++ [new_user], nextUserId := db.nextUserId + 1 })

/-- Handler `verify_email` of `main.py`: looks the user up by verification
token; if found, marks the row verified, clears the token and answers with
the success message; otherwise raises 400. -/
def verify_email (token : String) (db : DB) :
    Except HTTPException (String × DB) :=
  match db.users.find? (fun u => u.verification_token == some token) with
  | some _ =>
    .ok ("Email verified successfully",
      { db with users :=
          (updateFirst (fun u => u.verification_token == some token)
            (fun u => { u with is_verified := true, verification_token := none })
            db.users) })
  | none => .error ⟨400, "Invalid token"⟩

/-- Token minted by `auth.create_access_token`.
Modelled from the spec: `auth.py` is not in the repository snapshot; the
spec's Token Service `issue` "produces a signed token embedding the
subject", and `login` "mints a token via Token Service with subject =
email".  The model keeps exactly the embedded subject. -/
structure AccessToken where
  sub : String
deriving Repr, DecidableEq

/-- Modelled from the spec: `auth.create_access_token(data={"sub": email})`
is not in the snapshot; per the spec it issues a token whose subject is the
given email. -/
def create_access_token (sub : String) : AccessToken := ⟨sub⟩

/-- Successful response of `POST /token`. -/
structure TokenResponse where
  access_token : AccessToken
  token_type : String
deriving Repr, DecidableEq

/-- Handler `login` of `main.py`: finds the user by email (form field
`username`); raises 401 if absent or the password does not verify, raises
401 if the user is not verified, and otherwise returns a bearer token for
the user's email.  `vp` stands for `utils.verify_password`, whose source is
not in the repository snapshot. -/
def login (vp : String → String → Bool) (username password : String)
    (db : DB) : Except HTTPException TokenResponse :=
  match db.users.find? (fun u => u.email == username) with
  | none => .error ⟨401, "Incorrect email or password"⟩
  | some user =>
    if !vp password user.hashed_password then
      .error ⟨401, "Incorrect email or password"⟩
    else if !user.is_verified then
      .error ⟨401, "Email not verified"⟩
    else
      .ok ⟨create_access_token user.email, "bearer"⟩

/-- Request body of `POST /contacts/` (`schemas.py`, `ContactCreate`,
inheriting every field of `ContactBase`; all fields required). -/
structure ContactCreate where
  first_name : String
  last_name : String
  email : String
  phone : String
  birthday : CalDate
  additional_info : String
deriving Repr, DecidableEq

/-- Handler `create_contact` of `main.py`: persists a new `Contact` built
from the fully supplied creation schema with `owner_id` set to the
authenticated user's id, and returns the refreshed row. -/
def create_contact (contact : ContactCreate) (current_user : User)
    (db : DB) : Contact × DB :=
  let db_contact : Contact :=
    { id := db.nextContactId
      first_name := contact.first_name
      last_name := contact.last_name
      email := contact.email
      phone := contact.phone
      birthday := contact.birthday
      additional_info := contact.additional_info
      owner_id := current_user.id }
  (db_contact,
    { db with contacts := db.contacts ++ [db_contact],
              nextContactId := db.nextContactId + 1 })

/-- Handler `get_contacts` of `main.py`: `db.query(Contact).all()`.  The
route takes no `get_current_user` dependency, which the embedding reflects
by the function depending on nothing but the store. -/
def get_contacts (db : DB) : List Contact :=
  db.contacts

/-- Handler `get_contact` of `main.py`: row lookup by primary key, 404 when
absent. -/
def get_contact (contact_id : Nat) (db : DB) : Except HTTPException Contact :=
  match db.contacts.find? (fun c => c.id == contact_id) with
  | none => .error ⟨404, "Contact not found"⟩
  | some c => .ok c

/-- Request body of `PUT /contacts/{id}` (`schemas.py`, `ContactUpdate`):
five optional fields; `none` models a field absent from the request body,
which `contact.dict(exclude_unset=True)` then omits.  The schema declares
neither `birthday` nor `owner_id`. -/
structure ContactUpdate where
  first_name : Option String
  last_name : Option String
  email : Option String
  phone : Option String
  additional_info : Option String
deriving Repr, DecidableEq

/-- Pydantic validation of a JSON object against `ContactUpdate`: each of
the five declared fields becomes `some value` when the key is present, and
keys the schema does not declare (such as `birthday`) are ignored, the
default pydantic behaviour for extra fields. -/
def parseContactUpdate (body : List (String × String)) : ContactUpdate :=
  { first_name := body.lookup "first_name"
    last_name := body.lookup "last_name"
    email := body.lookup "email"
    phone := body.lookup "phone"
    additional_info := body.lookup "additional_info" }

/-- The `setattr` loop of `update_contact`: each field present in
`contact.dict(exclude_unset=True)` overwrites the row's field. -/
def applyUpdate (u : ContactUpdate) (c : Contact) : Contact :=
  { c with
    first_name := u.first_name.getD c.first_name
    last_name := u.last_name.getD c.last_name
    email := u.email.getD c.email
    phone := u.phone.getD c.phone
    additional_info := u.additional_info.getD c.additional_info }

/-- Handler `update_contact` of `main.py`: looks the row up by primary key
(404 when absent), overwrites exactly the supplied fields, commits, and
returns the refreshed row. -/
def update_contact (contact_id : Nat) (contact : ContactUpdate) (db : DB) :
    Except HTTPException (Contact × DB) :=
  match db.contacts.find? (fun c => c.id == contact_id) with
  | none => .error ⟨404, "Contact not found"⟩
  | some c =>
    .ok (applyUpdate contact c,
      { db with contacts :=
          (updateFirst (fun x => x.id == contact_id) (applyUpdate contact)
            db.contacts) })

/-- Handler `delete_contact` of `main.py`: looks the row up by primary key
(404 when absent), deletes that row, and answers `{"ok": true}`, modelled
as the boolean `true`. -/
def delete_contact (contact_id : Nat) (db : DB) :
    Except HTTPException (Bool × DB) :=
  match db.contacts.find? (fun c => c.id == contact_id) with
  | none => .error ⟨404, "Contact not found"⟩
  | some _ =>
    .ok (true,
      { db with contacts := db.contacts.eraseP (fun c => c.id == contact_id) })

/-- Handler `update_avatar` of `main.py`: uploads the file to the external
store (the returned URL is the argument `url`, the upload being external)
and stores it on the authenticated user's row. -/
def update_avatar (url : String) (current_user : User) (db : DB) :
    String × DB :=
  (url,
    { db with users :=
        (updateFirst (fun u => u.id == current_user.id)
          (fun u => { u with avatar_url := some url }) db.users) })

/-! ### Helper lemmas about `List.find?`, `updateFirst` and `List.eraseP` -/

theorem find?_append_of_forall_not {p : α → Bool} {l1 : List α}
    (l2 : List α) (h : ∀ x ∈ l1, ¬ p x) :
    (l1 ++ l2).find? p = l2.find? p := by
  induction l1 with
  | nil => rfl
  | cons a as ih =>
    have ha : ¬ p a := h a (List.mem_cons_self a as)
    simp only [List.cons_append, List.find?]
    rw [Bool.not_eq_true] at ha
    rw [ha]
    exact ih fun x hx => h x (List.mem_cons_of_mem a hx)

theorem mem_updateFirst {p : α → Bool} {f : α → α} {l : List α} {x : α}
    (hx : x ∈ updateFirst p f l) : x ∈ l ∨ ∃ y ∈ l, x = f y := by
  induction l with
  | nil => simp [updateFirst] at hx
  | cons a as ih =>
    by_cases ha : p a
    · simp only [updateFirst, if_pos ha] at hx
      rcases List.mem_cons.mp hx with h | h
      · exact Or.inr ⟨a, List.mem_cons_self a as, h⟩
      · exact Or.inl (List.mem_cons_of_mem a h)
    · simp only [updateFirst, if_neg ha] at hx
      rcases List.mem_cons.mp hx with h | h
      · exact Or.inl (h ▸ List.mem_cons_self a as)
      · rcases ih h with h' | ⟨y, hy, hxy⟩
        · exact Or.inl (List.mem_cons_of_mem a h')
        · exact Or.inr ⟨y, List.mem_cons_of_mem a hy, hxy⟩

theorem updateFirst_append_of_forall_not {p : α → Bool} {f : α → α}
    {l1 : List α} (l2 : List α) (h : ∀ x ∈ l1, ¬ p x) :
    updateFirst p f (l1 ++ l2) = l1 ++ updateFirst p f l2 := by
  induction l1 with
  | nil => rfl
  | cons a as ih =>
    have ha : ¬ p a := h a (List.mem_cons_self a as)
    have ih' := ih fun x hx => h x (List.mem_cons_of_mem a hx)
    simp only [List.cons_append, updateFirst, if_neg ha]
    exact congrArg (a :: ·) ih'

theorem countP_le_one_eraseP {p : α → Bool} {l : List α}
    (h : l.countP p ≤ 1) : ∀ x ∈ l.eraseP p, ¬ p x := by
  induction l with
  | nil => intro x hx; simp at hx
  | cons a as ih =>
    by_cases ha : p a
    · rw [List.countP_cons] at h
      simp only [ha, if_pos] at h
      have h0 : as.countP p = 0 := by omega
      intro x hx
      simp only [List.eraseP_cons, ha, cond_true] at hx
      exact List.countP_eq_zero.mp h0 x hx
    · rw [List.countP_cons] at h
      rw [Bool.not_eq_true] at ha
      simp only [ha, if_neg, Bool.false_eq_true, ite_false, Nat.add_zero] at h
      intro x hx
      simp only [List.eraseP_cons, ha, cond_false] at hx
      rcases List.mem_cons.mp hx with rfl | hx'
      · simp [ha]
      · exact ih h x hx'

/-- The row created by a successful registration. -/
def freshUser (hp : String → String) (email password uuidTok : String)
    (db : DB) : User :=
  { id := db.nextUserId
    email := email
    hashed_password := hp password
    is_verified := false
    verification_token := some uuidTok
    avatar_url := none }

theorem register_eq_of_fresh
    (hp : String → String) (email password uuidTok : String) (db : DB)
    (hfresh : ∀ u ∈ db.users, u.email ≠ email) :
    register hp ⟨email, password⟩ uuidTok db =
      .ok (freshUser hp email password uuidTok db,
        { db with
            users := db.users ++ [freshUser hp email password uuidTok db]
            nextUserId := db.nextUserId + 1 }) := by
  have hnone : db.users.find? (fun u => u.email == email) = none := by
    rw [List.find?_eq_none]
    intro u hu
    simp only [beq_iff_eq]
    exact hfresh u hu
  simp only [register, hnone, freshUser]

/-! ### Claims -/

/-- C1.  For every fresh email (no existing `User` row with that email),
`POST /register/` succeeds (HTTP 200, the handler raises nothing) and the
returned user view carries the given email, `is_verified = false`, a null
`avatar_url` and the freshly assigned id. -/
theorem register_fresh_email_succeeds
    (hp : String → String) (email password uuidTok : String) (db : DB)
    (hfresh : ∀ u ∈ db.users, u.email ≠ email) :
    ∃ u db', register hp ⟨email, password⟩ uuidTok db = .ok (u, db') ∧
      u.email = email ∧ u.is_verified = false ∧ u.avatar_url = none ∧
      u.id = db.nextUserId :=
  ⟨freshUser hp email password uuidTok db, _,
    register_eq_of_fresh hp email password uuidTok db hfresh,
    rfl, rfl, rfl, rfl⟩

/-- Closed instance of `register_fresh_email_succeeds` on the empty store. -/
theorem register_fresh_email_succeeds_witness :
    ∃ u db', register (fun s => s) ⟨"a@b.c", "pw"⟩ "tok-1" ⟨[], [], 1, 1⟩
        = .ok (u, db') ∧
      u.email = "a@b.c" ∧ u.is_verified = false ∧ u.avatar_url = none ∧
      u.id = 1 :=
  register_fresh_email_succeeds (fun s => s) "a@b.c" "pw" "tok-1"
    ⟨[], [], 1, 1⟩ (by intro u hu; simp at hu)

/-- C7.  Registering a fresh email and then registering the same email
again: the second call fails with 409 (raised before any write, so the
store is unchanged), and the store after the first call holds exactly one
user row with that email. -/
theorem register_duplicate_conflict
    (hp hp2 : String → String) (email p1 p2 t1 t2 : String) (db : DB)
    (hfresh : ∀ u ∈ db.users, u.email ≠ email) :
    ∃ u db', register hp ⟨email, p1⟩ t1 db = .ok (u, db') ∧
      register hp2 ⟨email, p2⟩ t2 db'
        = .error ⟨409, "User with this email already exists"⟩ ∧
      (db'.users.countP (fun u => u.email == email)) = 1 := by
  have hfail : ∀ x ∈ db.users, ¬ ((fun u : User => u.email == email) x) := by
    intro x hx
    simp only [beq_iff_eq]
    exact hfresh x hx
  refine ⟨_, _, register_eq_of_fresh hp email p1 t1 db hfresh, ?_, ?_⟩
  · simp only [register]
    rw [find?_append_of_forall_not _ hfail]
    simp [freshUser]
  · simp only []
    rw [List.countP_append]
    have h0 : db.users.countP (fun u => u.email == email) = 0 :=
      List.countP_eq_zero.mpr hfail
    rw [h0]
    simp [freshUser]

/-- Closed instance of `register_duplicate_conflict` on the empty store. -/
theorem register_duplicate_conflict_witness :
    ∃ u db', register (fun s => s) ⟨"a@b.c", "p1"⟩ "t1" ⟨[], [], 1, 1⟩
        = .ok (u, db') ∧
      register (fun s => s) ⟨"a@b.c", "p2"⟩ "t2" db'
        = .error ⟨409, "User with this email already exists"⟩ ∧
      (db'.users.countP (fun u => u.email == "a@b.c")) = 1 :=
  register_duplicate_conflict (fun s => s) (fun s => s) "a@b.c" "p1" "p2"
    "t1" "t2" ⟨[], [], 1, 1⟩ (by intro u hu; simp at hu)

/-- C3.  A token held by no user makes `verify_email` raise 400; the token
issued at registration verifies exactly once: the call succeeds, marks that
user verified and clears the token, and the very same call on the resulting
store raises 400 again. -/
theorem verify_email_token_lifecycle
    (hp : String → String) (email password t : String) (db : DB)
    (hefresh : ∀ u ∈ db.users, u.email ≠ email)
    (htfresh : ∀ u ∈ db.users, u.verification_token ≠ some t) :
    verify_email t db = .error ⟨400, "Invalid token"⟩ ∧
    ∀ u db', register hp ⟨email, password⟩ t db = .ok (u, db') →
      ∃ db'', verify_email t db' = .ok ("Email verified successfully", db'') ∧
        (∃ u2 ∈ db''.users, u2.id = u.id ∧ u2.is_verified = true ∧
          u2.verification_token = none) ∧
        verify_email t db'' = .error ⟨400, "Invalid token"⟩ := by
  have hfailtok :
      ∀ x ∈ db.users, ¬ ((fun u : User => u.verification_token == some t) x) := by
    intro x hx
    simp only [beq_iff_eq]
    exact htfresh x hx
  have hnone : db.users.find? (fun u => u.verification_token == some t) = none :=
    List.find?_eq_none.mpr hfailtok
  constructor
  · simp only [verify_email, hnone]
  · intro u db' hreg
    rw [register_eq_of_fresh hp email password t db hefresh] at hreg
    simp only [Except.ok.injEq, Prod.mk.injEq] at hreg
    obtain ⟨rfl, rfl⟩ := hreg
    refine ⟨{ db with
        users := db.users ++
          [{ freshUser hp email password t db with
              is_verified := true, verification_token := none }]
        nextUserId := db.nextUserId + 1 }, ?_, ?_, ?_⟩
    · simp only [verify_email]
      rw [find?_append_of_forall_not _ hfailtok,
        updateFirst_append_of_forall_not _ hfailtok]
      simp [freshUser, updateFirst, List.find?]
    · exact ⟨_, List.mem_append_right _ (List.mem_singleton_self _),
        rfl, rfl, rfl⟩
    · simp only [verify_email]
      rw [find?_append_of_forall_not _ hfailtok]
      simp [freshUser, List.find?]

/-- Closed instance of `verify_email_token_lifecycle` on the empty store. -/
theorem verify_email_token_lifecycle_witness :
    verify_email "t1" (⟨[], [], 1, 1⟩ : DB) = .error ⟨400, "Invalid token"⟩ ∧
    ∀ u db', register (fun s => s) ⟨"a@b.c", "pw"⟩ "t1" ⟨[], [], 1, 1⟩
        = .ok (u, db') →
      ∃ db'', verify_email "t1" db' = .ok ("Email verified successfully", db'') ∧
        (∃ u2 ∈ db''.users, u2.id = u.id ∧ u2.is_verified = true ∧
          u2.verification_token = none) ∧
        verify_email "t1" db'' = .error ⟨400, "Invalid token"⟩ :=
  verify_email_token_lifecycle (fun s => s) "a@b.c" "pw" "t1" ⟨[], [], 1, 1⟩
    (by intro u hu; simp at hu) (by intro u hu; simp at hu)

/-- The invariant of one user row: unverified rows hold a non-empty
verification token, verified rows hold none. -/
def UserOk (u : User) : Prop :=
  (u.is_verified = false → ∃ t, u.verification_token = some t ∧ t ≠ "") ∧
  (u.is_verified = true → u.verification_token = none)

/-- Stores reachable from the empty store through the route handlers.  A
handler that raises leaves the store untouched, so only successful calls
step.  The registration step carries the fact that `str(uuid4())` is never
the empty string. -/
inductive Reachable : DB → Prop
  | init : Reachable ⟨[], [], 1, 1⟩
  | register_step {db db' : DB} {h : String → String} {c : UserCreate}
      {t : String} {u : User} : Reachable db → t ≠ "" →
      register h c t db = .ok (u, db') → Reachable db'
  | verify_step {db db' : DB} {t m : String} : Reachable db →
      verify_email t db = .ok (m, db') → Reachable db'
  | create_step {db : DB} {c : ContactCreate} {u : User} : Reachable db →
      Reachable (create_contact c u db).2
  | update_step {db db' : DB} {i : Nat} {p : ContactUpdate} {c : Contact} :
      Reachable db → update_contact i p db = .ok (c, db') → Reachable db'
  | delete_step {db db' : DB} {i : Nat} {b : Bool} : Reachable db →
      delete_contact i db = .ok (b, db') → Reachable db'
  | avatar_step {db : DB} {s : String} {u : User} : Reachable db →
      Reachable (update_avatar s u db).2

/-- C2.  Every store reachable through the public operations keeps the
token invariant on every user row: unverified rows have a non-empty
verification token and verified rows have none. -/
theorem users_reachable_invariant {db : DB} (h : Reachable db) :
    ∀ u ∈ db.users, UserOk u := by
  induction h with
  | init => intro u hu; simp at hu
  | register_step hr ht hreg ih =>
    rename_i db db' hpf uc tok unew
    intro u hu
    unfold register at hreg
    cases hfind : db.users.find? (fun x => x.email == uc.email) with
    | some w => rw [hfind] at hreg; simp at hreg
    | none =>
      rw [hfind] at hreg
      simp only [Except.ok.injEq, Prod.mk.injEq] at hreg
      obtain ⟨-, rfl⟩ := hreg
      rcases List.mem_append.mp hu with hu | hu
      · exact ih u hu
      · rw [List.mem_singleton] at hu
        subst hu
        exact ⟨fun _ => ⟨tok, rfl, ht⟩, fun hv => by simp at hv⟩
  | verify_step hr hv ih =>
    rename_i db db' tok msg
    intro u hu
    unfold verify_email at hv
    cases hfind : db.users.find? (fun x => x.verification_token == some tok) with
    | none => rw [hfind] at hv; simp at hv
    | some w =>
      rw [hfind] at hv
      simp only [Except.ok.injEq, Prod.mk.injEq] at hv
      obtain ⟨-, rfl⟩ := hv
      rcases mem_updateFirst hu with hu | ⟨y, hy, rfl⟩
      · exact ih u hu
      · exact ⟨fun hfv => by simp at hfv, fun _ => rfl⟩
  | create_step hr ih => exact ih
  | update_step hr hu ih =>
    rename_i db db' cid cupd cres
    unfold update_contact at hu
    cases hfind : db.contacts.find? (fun x => x.id == cid) with
    | none => rw [hfind] at hu; simp at hu
    | some w =>
      rw [hfind] at hu
      simp only [Except.ok.injEq, Prod.mk.injEq] at hu
      obtain ⟨-, rfl⟩ := hu
      exact ih
  | delete_step hr hd ih =>
    rename_i db db' cid bres
    unfold delete_contact at hd
    cases hfind : db.contacts.find? (fun x => x.id == cid) with
    | none => rw [hfind] at hd; simp at hd
    | some w =>
      rw [hfind] at hd
      simp only [Except.ok.injEq, Prod.mk.injEq] at hd
      obtain ⟨-, rfl⟩ := hd
      exact ih
  | avatar_step hr ih =>
    rename_i db url cu
    intro u hu
    rcases mem_updateFirst hu with hu | ⟨y, hy, rfl⟩
    · exact ih u hu
    · obtain ⟨h1, h2⟩ := ih y hy
      exact ⟨h1, h2⟩

/-- Closed instance of `users_reachable_invariant`: the row produced by
registering one user on the empty store satisfies the invariant. -/
theorem users_reachable_invariant_witness :
    UserOk ⟨1, "a@b.c", "pw", false, some "t1", none⟩ := by
  have h1 : register (fun s => s) ⟨"a@b.c", "pw"⟩ "t1" ⟨[], [], 1, 1⟩
      = .ok (⟨1, "a@b.c", "pw", false, some "t1", none⟩,
        ⟨[⟨1, "a@b.c", "pw", false, some "t1", none⟩], [], 2, 1⟩) := rfl
  exact users_reachable_invariant
    (Reachable.register_step Reachable.init (by decide) h1)
    ⟨1, "a@b.c", "pw", false, some "t1", none⟩ (List.mem_singleton_self _)

/-- C4.  With emails pairwise distinct (the unique column constraint),
`POST /token` raises 401 exactly when no user has the form's email, or the
password does not verify against the stored hash, or the user is
unverified; otherwise it answers with a bearer token whose subject is the
user's email. -/
theorem login_semantics
    (vp : String → String → Bool) (username password : String) (db : DB)
    (huniq : ∀ u1 ∈ db.users, ∀ u2 ∈ db.users, u1.email = u2.email → u1 = u2) :
    ((∃ d, login vp username password db = .error ⟨401, d⟩) ↔
      ((¬ ∃ u ∈ db.users, u.email = username) ∨
        (∃ u ∈ db.users, u.email = username ∧
          (vp password u.hashed_password = false ∨ u.is_verified = false)))) ∧
    (∀ u ∈ db.users, u.email = username →
      vp password u.hashed_password = true → u.is_verified = true →
      login vp username password db =
        .ok ⟨create_access_token u.email, "bearer"⟩) := by
  cases hfind : db.users.find? (fun x => x.email == username) with
  | none =>
    have habsent : ∀ x ∈ db.users, x.email ≠ username := by
      intro x hx
      have := List.find?_eq_none.mp hfind x hx
      simpa using this
    constructor
    · constructor
      · intro _
        exact Or.inl (by rintro ⟨u, hu, he⟩; exact habsent u hu he)
      · intro _
        exact ⟨"Incorrect email or password", by simp [login, hfind]⟩
    · intro u hu he
      exact absurd he (habsent u hu)
  | some u0 =>
    have hu0mem : u0 ∈ db.users := List.mem_of_find?_eq_some hfind
    have hu0email : u0.email = username := by
      have := List.find?_some hfind
      simpa using this
    cases hvp : vp password u0.hashed_password with
    | false =>
      constructor
      · constructor
        · intro _
          exact Or.inr ⟨u0, hu0mem, hu0email, Or.inl hvp⟩
        · intro _
          exact ⟨"Incorrect email or password", by simp [login, hfind, hvp]⟩
      · intro u hu he hvp' _
        have : u = u0 := huniq u hu u0 hu0mem (he.trans hu0email.symm)
        subst this
        rw [hvp] at hvp'
        exact absurd hvp' (by simp)
    | true =>
      cases hver : u0.is_verified with
      | false =>
        constructor
        · constructor
          · intro _
            exact Or.inr ⟨u0, hu0mem, hu0email, Or.inr hver⟩
          · intro _
            exact ⟨"Email not verified", by simp [login, hfind, hvp, hver]⟩
        · intro u hu he _ hver'
          have : u = u0 := huniq u hu u0 hu0mem (he.trans hu0email.symm)
          subst this
          rw [hver] at hver'
          exact absurd hver' (by simp)
      | true =>
        have hok : login vp username password db =
            .ok ⟨create_access_token u0.email, "bearer"⟩ := by
          simp [login, hfind, hvp, hver]
        constructor
        · constructor
          · rintro ⟨d, hd⟩
            rw [hok] at hd
            simp at hd
          · rintro (habs | ⟨u, hu, he, hbad⟩)
            · exact absurd ⟨u0, hu0mem, hu0email⟩ habs
            · have : u = u0 := huniq u hu u0 hu0mem (he.trans hu0email.symm)
              subst this
              rcases hbad with hbad | hbad
              · rw [hvp] at hbad; exact absurd hbad (by simp)
              · rw [hver] at hbad; exact absurd hbad (by simp)
        · intro u hu he _ _
          have : u = u0 := huniq u hu u0 hu0mem (he.trans hu0email.symm)
          subst this
          exact hok

/-- Closed instance of `login_semantics`: one verified user in the store,
the password check being string equality against the stored value. -/
theorem login_semantics_witness :
    ((∃ d, login (fun a b => a == b) "a@b.c" "pw"
        (⟨[⟨1, "a@b.c", "pw", true, none, none⟩], [], 2, 1⟩ : DB)
          = .error ⟨401, d⟩) ↔
      ((¬ ∃ u ∈ ([⟨1, "a@b.c", "pw", true, none, none⟩] : List User),
          u.email = "a@b.c") ∨
        (∃ u ∈ ([⟨1, "a@b.c", "pw", true, none, none⟩] : List User),
          u.email = "a@b.c" ∧
          ((fun a b : String => a == b) "pw" u.hashed_password = false ∨
            u.is_verified = false)))) ∧
    (∀ u ∈ ([⟨1, "a@b.c", "pw", true, none, none⟩] : List User),
      u.email = "a@b.c" →
      (fun a b : String => a == b) "pw" u.hashed_password = true →
      u.is_verified = true →
      login (fun a b => a == b) "a@b.c" "pw"
        (⟨[⟨1, "a@b.c", "pw", true, none, none⟩], [], 2, 1⟩ : DB) =
          .ok ⟨create_access_token u.email, "bearer"⟩) :=
  login_semantics (fun a b => a == b) "a@b.c" "pw"
    ⟨[⟨1, "a@b.c", "pw", true, none, none⟩], [], 2, 1⟩
    (by
      intro u1 h1 u2 h2 _
      rw [List.mem_singleton] at h1 h2
      rw [h1, h2])

/-- C5.  An authenticated owner creating a contact with the full field set
and fetching it by the returned id gets back exactly those fields, the
stable freshly assigned id, and `owner_id` equal to the owner's id.  The
freshness hypothesis on `nextContactId` is the primary-key autoincrement
guarantee of the store. -/
theorem create_then_get_roundtrip (c : ContactCreate) (owner : User)
    (db : DB) (hfresh : ∀ x ∈ db.contacts, x.id ≠ db.nextContactId) :
    ∃ ct db', create_contact c owner db = (ct, db') ∧
      get_contact ct.id db' = .ok ct ∧
      ct.first_name = c.first_name ∧ ct.last_name = c.last_name ∧
      ct.email = c.email ∧ ct.phone = c.phone ∧
      ct.birthday = c.birthday ∧ ct.additional_info = c.additional_info ∧
      ct.id = db.nextContactId ∧ ct.owner_id = owner.id := by
  refine ⟨_, _, rfl, ?_, rfl, rfl, rfl, rfl, rfl, rfl, rfl, rfl⟩
  have hfail : ∀ x ∈ db.contacts,
      ¬ ((fun y : Contact => y.id == db.nextContactId) x) := by
    intro x hx
    simp only [beq_iff_eq]
    exact hfresh x hx
  simp only [create_contact, get_contact]
  rw [find?_append_of_forall_not _ hfail]
  simp [List.find?]

/-- Closed instance of `create_then_get_roundtrip` on a store with no
contacts. -/
theorem create_then_get_roundtrip_witness :
    ∃ ct db', create_contact ⟨"John", "Doe", "j@d.c", "123", ⟨1990, 1, 1⟩, "x"⟩
        ⟨1, "a@b.c", "pw", true, none, none⟩ ⟨[], [], 2, 1⟩ = (ct, db') ∧
      get_contact ct.id db' = .ok ct ∧
      ct.first_name = "John" ∧ ct.last_name = "Doe" ∧
      ct.email = "j@d.c" ∧ ct.phone = "123" ∧
      ct.birthday = ⟨1990, 1, 1⟩ ∧ ct.additional_info = "x" ∧
      ct.id = 1 ∧ ct.owner_id = 1 :=
  create_then_get_roundtrip ⟨"John", "Doe", "j@d.c", "123", ⟨1990, 1, 1⟩, "x"⟩
    ⟨1, "a@b.c", "pw", true, none, none⟩ ⟨[], [], 2, 1⟩
    (by intro x hx; simp at hx)

/-- C9.  `GET /contacts/` depends on nothing but the store (the route has
no authentication dependency) and returns every stored contact, unfiltered
by owner. -/
theorem get_contacts_unfiltered (db : DB) :
    get_contacts db = db.contacts :=
  rfl

theorem find?_updateFirst_of_pos {p : α → Bool} {f : α → α} {l : List α}
    {a : α} (h : l.find? p = some a) (hf : p (f a)) :
    (updateFirst p f l).find? p = some (f a) := by
  induction l with
  | nil => simp at h
  | cons x xs ih =>
    cases hx : p x with
    | true =>
      rw [List.find?_cons_of_pos _ hx] at h
      injection h with h
      subst h
      simp only [updateFirst, if_pos hx]
      rw [List.find?_cons_of_pos _ hf]
    | false =>
      rw [List.find?_cons_of_neg _ (by simp [hx])] at h
      have hx' : ¬ p x := by simp [hx]
      simp only [updateFirst, if_neg hx']
      rw [List.find?_cons_of_neg _ (by simp [hx])]
      exact ih h

/-- C6.  Updating an existing contact overwrites exactly the supplied
fields: each of the five updatable fields takes the supplied value when
present and keeps its prior value when absent, while `birthday`, `id` and
`owner_id` are untouched; fetching the contact afterwards returns the
updated row. -/
theorem update_partial_fields_frame (cid : Nat) (p : ContactUpdate)
    (db : DB) (c : Contact)
    (hc : db.contacts.find? (fun x => x.id == cid) = some c) :
    ∃ c' db', update_contact cid p db = .ok (c', db') ∧
      get_contact cid db' = .ok c' ∧
      c'.first_name = p.first_name.getD c.first_name ∧
      c'.last_name = p.last_name.getD c.last_name ∧
      c'.email = p.email.getD c.email ∧
      c'.phone = p.phone.getD c.phone ∧
      c'.additional_info = p.additional_info.getD c.additional_info ∧
      c'.birthday = c.birthday ∧ c'.id = c.id ∧ c'.owner_id = c.owner_id := by
  refine ⟨applyUpdate p c,
    { db with contacts :=
        (updateFirst (fun x => x.id == cid) (applyUpdate p) db.contacts) },
    ?_, ?_, rfl, rfl, rfl, rfl, rfl, rfl, rfl, rfl⟩
  · simp only [update_contact, hc]
  · have hid : c.id = cid := by
      have := List.find?_some hc
      simpa using this
    have hpres : (fun x : Contact => x.id == cid) (applyUpdate p c) := by
      simp [applyUpdate, hid]
    simp only [get_contact]
    rw [find?_updateFirst_of_pos hc hpres]

/-- Closed instance of `update_partial_fields_frame`: a one-contact store,
an update supplying only `phone`. -/
theorem update_partial_fields_frame_witness :
    ∃ c' db', update_contact 1 ⟨none, none, none, some "999", none⟩
        (⟨[], [⟨1, "John", "Doe", "j@d.c", "123", ⟨1990, 1, 1⟩, "x", 1⟩],
          2, 2⟩ : DB) = .ok (c', db') ∧
      get_contact 1 db' = .ok c' ∧
      c'.first_name = (none : Option String).getD "John" ∧
      c'.last_name = (none : Option String).getD "Doe" ∧
      c'.email = (none : Option String).getD "j@d.c" ∧
      c'.phone = (some "999").getD "123" ∧
      c'.additional_info = (none : Option String).getD "x" ∧
      c'.birthday = ⟨1990, 1, 1⟩ ∧ c'.id = 1 ∧ c'.owner_id = 1 :=
  update_partial_fields_frame 1 ⟨none, none, none, some "999", none⟩
    ⟨[], [⟨1, "John", "Doe", "j@d.c", "123", ⟨1990, 1, 1⟩, "x", 1⟩], 2, 2⟩
    ⟨1, "John", "Doe", "j@d.c", "123", ⟨1990, 1, 1⟩, "x", 1⟩
    (by simp [List.find?])

/-- C8.  With at most one stored contact per id (the primary-key
constraint), `DELETE` on a missing id raises 404; `DELETE` on an existing
id answers `{"ok": true}` and a subsequent `GET` on the same id raises
404. -/
theorem delete_then_get_notfound (cid : Nat) (db : DB)
    (hdup : db.contacts.countP (fun c => c.id == cid) ≤ 1) :
    ((∀ c ∈ db.contacts, c.id ≠ cid) →
      delete_contact cid db = .error ⟨404, "Contact not found"⟩) ∧
    (∀ c ∈ db.contacts, c.id = cid →
      ∃ db', delete_contact cid db = .ok (true, db') ∧
        get_contact cid db' = .error ⟨404, "Contact not found"⟩) := by
  constructor
  · intro habsent
    have hnone : db.contacts.find? (fun c => c.id == cid) = none := by
      rw [List.find?_eq_none]
      intro x hx
      simp only [beq_iff_eq]
      exact habsent x hx
    simp only [delete_contact, hnone]
  · intro c hc hcid
    have hsome : ∃ w, db.contacts.find? (fun x => x.id == cid) = some w := by
      rcases hfind : db.contacts.find? (fun x => x.id == cid) with _ | w
      · have := List.find?_eq_none.mp hfind c hc
        simp [hcid] at this
      · exact ⟨w, hfind⟩
    obtain ⟨w, hw⟩ := hsome
    refine ⟨{ db with contacts := db.contacts.eraseP (fun x => x.id == cid) },
      ?_, ?_⟩
    · simp only [delete_contact, hw]
    · have hgone := countP_le_one_eraseP hdup
      have hnone2 :
          (db.contacts.eraseP (fun x => x.id == cid)).find?
            (fun x => x.id == cid) = none :=
        List.find?_eq_none.mpr hgone
      simp only [get_contact, hnone2]

/-- Closed instance of `delete_then_get_notfound` on a one-contact store. -/
theorem delete_then_get_notfound_witness :
    ((∀ c ∈ ([⟨1, "John", "Doe", "j@d.c", "123", ⟨1990, 1, 1⟩, "x", 1⟩] :
        List Contact), c.id ≠ 1) →
      delete_contact 1
          (⟨[], [⟨1, "John", "Doe", "j@d.c", "123", ⟨1990, 1, 1⟩, "x", 1⟩],
            2, 2⟩ : DB)
        = .error ⟨404, "Contact not found"⟩) ∧
    (∀ c ∈ ([⟨1, "John", "Doe", "j@d.c", "123", ⟨1990, 1, 1⟩, "x", 1⟩] :
        List Contact), c.id = 1 →
      ∃ db', delete_contact 1
          (⟨[], [⟨1, "John", "Doe", "j@d.c", "123", ⟨1990, 1, 1⟩, "x", 1⟩],
            2, 2⟩ : DB) = .ok (true, db') ∧
        get_contact 1 db' = .error ⟨404, "Contact not found"⟩) :=
  delete_then_get_notfound 1
    ⟨[], [⟨1, "John", "Doe", "j@d.c", "123", ⟨1990, 1, 1⟩, "x", 1⟩], 2, 2⟩
    (by simp [List.countP, List.countP.go])

/-- C10.  `PUT /contacts/{id}` can never change a stored birthday: the
update schema declares no `birthday` field, so whatever the request body
holds — a `"birthday"` key included — every contact in the store after a
successful update keeps the birthday (and the owner) of the row it came
from. -/
theorem put_never_changes_birthday
    (body : List (String × String)) (cid : Nat) (db : DB)
    (res : Contact × DB)
    (h : update_contact cid (parseContactUpdate body) db = .ok res) :
    ∀ c' ∈ res.2.contacts, ∃ c ∈ db.contacts,
      c.id = c'.id ∧ c'.birthday = c.birthday ∧ c'.owner_id = c.owner_id := by
  unfold update_contact at h
  cases hfind : db.contacts.find? (fun x => x.id == cid) with
  | none => rw [hfind] at h; simp at h
  | some w =>
    rw [hfind] at h
    simp only [Except.ok.injEq] at h
    obtain rfl := h.symm
    intro c' hc'
    rcases mem_updateFirst hc' with hc' | ⟨y, hy, rfl⟩
    · exact ⟨c', hc', rfl, rfl, rfl⟩
    · exact ⟨y, hy, rfl, rfl, rfl⟩

/-- Closed instance of `put_never_changes_birthday`: the request body even
supplies a `"birthday"` key, which the schema drops, so the updated row
keeps the stored birthday. -/
theorem put_never_changes_birthday_witness :
    ∃ c ∈ ([⟨1, "John", "Doe", "j@d.c", "123", ⟨1990, 1, 1⟩, "x", 1⟩] :
        List Contact),
      c.id = (⟨1, "John", "Doe", "j@d.c", "999", ⟨1990, 1, 1⟩, "x", 1⟩ :
        Contact).id ∧
      (⟨1, "John", "Doe", "j@d.c", "999", ⟨1990, 1, 1⟩, "x", 1⟩ :
        Contact).birthday = c.birthday ∧
      (⟨1, "John", "Doe", "j@d.c", "999", ⟨1990, 1, 1⟩, "x", 1⟩ :
        Contact).owner_id = c.owner_id :=
  put_never_changes_birthday [("birthday", "2000-12-31"), ("phone", "999")]
    1 ⟨[], [⟨1, "John", "Doe", "j@d.c", "123", ⟨1990, 1, 1⟩, "x", 1⟩], 2, 2⟩
    (⟨1, "John", "Doe", "j@d.c", "999", ⟨1990, 1, 1⟩, "x", 1⟩,
      ⟨[], [⟨1, "John", "Doe", "j@d.c", "999", ⟨1990, 1, 1⟩, "x", 1⟩], 2, 2⟩)
    (by simp [update_contact, List.find?, parseContactUpdate, applyUpdate,
      updateFirst, List.lookup])
    ⟨1, "John", "Doe", "j@d.c", "999", ⟨1990, 1, 1⟩, "x", 1⟩
    (List.mem_singleton_self _)

/-- The attribute names a `User` ORM row exposes (`models.py`, class
`User`). -/
def userAttrNames : List String :=
  ["id", "email", "hashed_password", "is_verified", "verification_token",
   "avatar_url", "contacts"]

/-- The required fields of the `Contact` response schema (`schemas.py`,
class `Contact`: every `ContactBase` field plus `id` and `owner_id`),
which `main.py` declares as the `response_model` of `POST /register/`. -/
def contactViewFields : List String :=
  ["first_name", "last_name", "email", "phone", "birthday",
   "additional_info", "id", "owner_id"]

/-- Response validation of a returned object against a schema reading its
fields off the object's attributes (`from_attributes`): it succeeds only
when every required field of the schema is an attribute of the object. -/
def canPopulateView (fields attrs : List String) : Bool :=
  fields.all (fun f => attrs.contains f)

/-- C1, as the code behaves: at the repository's own test input (a fresh
email on the empty store) the `register` handler does commit and return an
unverified user row, but the route's declared response model — the Contact
view — cannot be populated from a `User` row, so the route cannot emit the
claimed 200 User view: serialization of the response fails. -/
theorem register_response_model_mismatch :
    (∃ u db',
      register (fun s => s) ⟨"testuser@example.com", "testpassword"⟩ "t1"
        ⟨[], [], 1, 1⟩ = .ok (u, db') ∧ u.is_verified = false ∧
        u.email = "testuser@example.com") ∧
    canPopulateView contactViewFields userAttrNames = false :=
  ⟨⟨_, _, rfl, rfl, rfl⟩, by decide⟩
